import Mathlib

/-!
# Verification of the Mock X-GEN TI API core (pagination, retention, scheduling)

Shallow embedding of `app/main.py` of the Sentinel-TI-Upload-with-Mock-TI-API
repository, together with spec-modelled stubs for the modules the repository
references but whose sources are not available here (`app/paging.py`,
`app/file_store.py`).  Machine behaviour that matters is modelled faithfully:
Python list slicing (including negative end indices), Python truthiness in
`limit or len(items)`, and the string tests of the retention sweep.
-/

namespace TIApi

/-- Python list slicing `xs[a:b]` with step 1: a negative bound counts from the
end of the list, then both bounds are clamped into `[0, len]`, and the result
is the (possibly empty) run of elements with indices in `[a', b')`. -/
def pyslice {α : Type} (xs : List α) (a b : Int) : List α :=
  let n : Int := xs.length
  let a' : Int := if a < 0 then max (n + a) 0 else min a n
  let b' : Int := if b < 0 then max (n + b) 0 else min b n
  (xs.take b'.toNat).drop a'.toNat

/-- Modelled from the spec: `app/paging.py` is not among the available sources.
Per §4.3 the token is an opaque, stable, reversible encoding of a non-negative
offset; malformed or tampered tokens must decode to offset 0 (fail closed).
We model the token type abstractly: a well-formed token carries the encoded
integer, and a `malformed` token stands for any garbage string a caller may
send. -/
inductive Token where
  | valid : Int → Token
  | malformed : String → Token
deriving DecidableEq, Repr

/-- Modelled from the spec: `encode(offset) → token` (§4.3), a stable pure
function of the offset. -/
def encode_token (n : Int) : Token := Token.valid n

/-- Modelled from the spec: `decode(token) → offset` (§4.3).  An absent or
malformed token decodes to 0; a well-formed token decodes to the encoded
non-negative offset (fail closed on anything else). -/
def decode_token : Option Token → Int
  | none => 0
  | some (Token.valid n) => if n < 0 then 0 else n
  | some (Token.malformed _) => 0

/-- Result quadruple of `_page` (slice, total, more, next_token), as returned
at `app/main.py:72`. -/
structure PageResult (α : Type) where
  slice : List α
  total : Nat
  more : Bool
  next_token : Option Token
deriving Repr

/-- `_page` from `app/main.py:65-72`:
`total = len(items)`, `start = max(offset, 0)`,
`end = min(start + page_size, total)`, `slice_ = items[start:end]`,
`more = end < total`, `next_token = encode_token(end) if more else None`. -/
def _page {α : Type} (items : List α) (offset : Int) (page_size : Int) :
    PageResult α :=
  let total : Int := items.length
  let start : Int := max offset 0
  let stop : Int := min (start + page_size) total
  { slice := pyslice items start stop
    total := items.length
    more := decide (stop < total)
    next_token := if stop < total then some (encode_token stop) else none }

/-- The client loop of the paging-exhaustiveness property: starting from a
given offset, repeatedly request a page with `_page`, follow the offset
decoded from the returned next token while `more` is true, and concatenate
the returned pages.  `fuel` bounds the number of requests; `none` means the
fuel ran out before `more` became false. -/
def pageLoopFuel {α : Type} : Nat → List α → Int → Int → Option (List α)
  | 0, _, _, _ => none
  | fuel + 1, items, k, offset =>
    let r := _page items offset k
    if r.more then
      (pageLoopFuel fuel items k (decode_token r.next_token)).map
        (fun rest => r.slice ++ rest)
    else
      some r.slice

/-- A STIX object as far as the merge/filter/paging pipeline observes it:
its identifier, its `type` string, and its `modified` timestamp (modelled
as seconds since the epoch). -/
structure StixObj where
  id : String
  type : String
  modified : Int
deriving DecidableEq, Repr

/-- Modelled from the spec: `app/file_store.py` is not among the available
sources.  Per §3 and §4.2, `load_objects` reads the merged snapshot
sequence (taken here as input, oldest-to-newest), keeps objects whose
`modified` timestamp is at least the `since` threshold (all when absent) and
whose `type` is in the allow-list (all when absent), and truncates to at
most `limit` objects total. -/
def load_objects (merged : List StixObj) (since : Option Int)
    (limit : Nat) (types : Option (List String)) : List StixObj :=
  (merged.filter (fun o =>
    (match since with
     | none => true
     | some s => decide (s ≤ o.modified)) &&
    (match types with
     | none => true
     | some ts => ts.contains o.type))).take limit

/-- Modelled from the spec: the indicator-only read entry point of the
store (§4.2) — the same merge/filter contract restricted to the single
object type "indicator". -/
def load_indicators (merged : List StixObj) (since : Option Int)
    (limit : Nat) : List StixObj :=
  load_objects merged since limit (some ["indicator"])

/-- `_parse_types_param` from `app/main.py:55-59`: `None` (or the falsy
empty string) gives no filter; otherwise split on commas, trim, drop empty
parts, and treat an empty remainder as no filter. -/
def _parse_types_param (types_param : Option String) :
    Option (List String) :=
  match types_param with
  | none => none
  | some s =>
    if s = "" then none
    else
      let parts := ((s.splitOn ",").map (fun t => t.trim)).filter
        (fun t => t != "")
      if parts = [] then none else some parts

/-- `_collect_items` from `app/main.py:61-63`: load the merged view with the
hard-coded cap of 10 000 objects. -/
def _collect_items (store : List StixObj) (since : Option Int)
    (types : Option (List String)) : List StixObj :=
  load_objects store since 10000 types

/-- The effective page size computed at `app/main.py:182-183`: Python runs
`page_size = limit or len(items)` only when `page_size` is `None`, and `or`
falls through on a falsy (`None` or `0`) limit. -/
def effective_page_size (itemsLen : Nat) (limit : Option Int)
    (page_size : Option Int) : Int :=
  match page_size with
  | some ps => ps
  | none =>
    match limit with
    | none => (itemsLen : Int)
    | some l => if l = 0 then (itemsLen : Int) else l

/-- `get_indicators` from `app/main.py:179-193`: load the indicator view
with cap 10 000, default the page size, decode the cursor, and page. -/
def get_indicators (store : List StixObj) (since : Option Int)
    (limit : Option Int) (page_size : Option Int) (next : Option Token) :
    PageResult StixObj :=
  let items := load_indicators store since 10000
  let ps := effective_page_size items.length limit page_size
  let offset := decode_token next
  _page items offset ps

/-- `get_collection_objects` from `app/main.py:205-219`: 404 when the
requested collection id differs from the configured `COLLECTION_ID`
(passed here as `cID`); otherwise parse the types filter, collect the
capped merged view, decode the cursor, and page. -/
def get_collection_objects (cID : String) (store : List StixObj)
    (collection_id : String) (since : Option Int) (types : Option String)
    (page_size : Int) (next : Option Token) :
    Except Nat (PageResult StixObj) :=
  if collection_id ≠ cID then Except.error 404
  else
    let type_list := _parse_types_param types
    let items := _collect_items store since type_list
    let offset := decode_token next
    Except.ok (_page items offset page_size)

/-- `taxii_objects` from `app/main.py:246-262` (the paging-relevant part):
404 on an unknown collection id; the type filter is forced to
["indicator"] when `TAXII_INDICATORS_ONLY` (`tio`) is set; then collect
the capped merged view, decode the cursor, and page with `limit` as the
page size. -/
def taxii_objects (cID : String) (tio : Bool) (store : List StixObj)
    (collection_id : String) (added_after : Option Int) (limit : Int)
    (next : Option Token) (types : Option String) :
    Except Nat (PageResult StixObj) :=
  if collection_id ≠ cID then Except.error 404
  else
    let type_list := if tio then some ["indicator"]
      else _parse_types_param types
    let items := _collect_items store added_after type_list
    let offset := decode_token next
    Except.ok (_page items offset limit)

/-- A file observed by the retention sweep: its base name and its
modification time in seconds since the epoch. -/
structure FSFile where
  name : String
  mtime : Int
deriving DecidableEq, Repr

/-- Python `str.lower()` (ASCII range, which covers the snapshot names),
character by character. -/
def py_lower (s : String) : String := String.mk (s.data.map Char.toLower)

/-- Python `str.startswith(p)` as a comparison of character sequences. -/
def py_startswith (s p : String) : Bool := p.data.isPrefixOf s.data

/-- Python `str.endswith(p)` as a comparison of character sequences. -/
def py_endswith (s p : String) : Bool := p.data.isSuffixOf s.data

/-- The eligibility test of `app/main.py:165`:
`filename.lower().endswith('.json') and filename.startswith('indicators_')`. -/
def matches_snapshot_convention (filename : String) : Bool :=
  py_endswith (py_lower filename) ".json" &&
    py_startswith filename "indicators_"

/-- The deletion loop of `delete_old_ti_files` (`app/main.py:163-170`) over
the walked files, in walk order: returns the deleted names and the
surviving files. -/
def reap_sweep (threshold : Int) : List FSFile → List String × List FSFile
  | [] => ([], [])
  | f :: fs =>
    let rest := reap_sweep threshold fs
    if matches_snapshot_convention f.name && decide (f.mtime < threshold)
    then (f.name :: rest.1, rest.2)
    else (rest.1, f :: rest.2)

/-- Response and filesystem effect of the delete-old-snapshots operation. -/
structure ReapResult where
  deleted_files : List String
  total_deleted : Nat
  threshold_hours : Int
  surviving : List FSFile
deriving DecidableEq, Repr

/-- `delete_old_ti_files` from `app/main.py:158-177`: the cut-off is
`now − h` hours (`timedelta(hours=h)`, i.e. `h * 3600` seconds); files
matching the snapshot convention with modification time strictly below the
cut-off are removed; the response carries the deleted names, their count
and the echoed threshold. -/
def delete_old_ti_files (files : List FSFile) (now : Int) (h : Int) :
    ReapResult :=
  let threshold := now - h * 3600
  let swept := reap_sweep threshold files
  { deleted_files := swept.1
    total_deleted := swept.1.length
    threshold_hours := h
    surviving := swept.2 }

/-- Observable events of the regeneration scheduler
(`app/main.py:75-91`). -/
inductive SchedEvent where
  | generate_write
  | log_error (msg : String)
  | sleep (seconds : Nat)
deriving DecidableEq, Repr

/-- One iteration of the scheduler's infinite loop (`app/main.py:82-89`),
given this cycle's generate-and-write outcome: sleep the configured
interval and attempt the cycle; on any failure log the error and back off
a fixed 10 seconds.  The iteration is a total function of the outcome — no
failure escapes it. -/
def loop_iter (interval : Nat) (outcome : Except String Unit) :
    List SchedEvent :=
  match outcome with
  | Except.ok _ => [SchedEvent.sleep interval, SchedEvent.generate_write]
  | Except.error e =>
      [SchedEvent.sleep interval, SchedEvent.log_error e,
       SchedEvent.sleep 10]

/-- The scheduler's event trace after startup and `n` loop iterations
(`app/main.py:75-91`): when generate-on-start is enabled exactly one
generate-and-write cycle runs before the loop begins; `outcomes i` is an
oracle giving the result of the `i`-th loop cycle. -/
def scheduler_trace (genOnStart : Bool) (interval : Nat)
    (outcomes : Nat → Except String Unit) : Nat → List SchedEvent
  | 0 => if genOnStart then [SchedEvent.generate_write] else []
  | n + 1 => scheduler_trace genOnStart interval outcomes n ++
      loop_iter interval (outcomes n)

/-- For non-negative bounds, Python slicing `xs[a:b]` coincides with the plain
drop-then-take slice of elements with indices in `[a, b)`. -/
theorem pyslice_nonneg {α : Type} (xs : List α) (a b : Int)
    (ha : 0 ≤ a) (hb : 0 ≤ b) :
    pyslice xs a b = (xs.drop a.toNat).take (b.toNat - a.toNat) := by
  have hna : ¬ a < 0 := not_lt.mpr ha
  have hnb : ¬ b < 0 := not_lt.mpr hb
  simp only [pyslice, hna, hnb, if_false]
  have h1 : (min b (xs.length : Int)).toNat = min b.toNat xs.length := by omega
  have h2 : (min a (xs.length : Int)).toNat = min a.toNat xs.length := by omega
  rw [h1, h2]
  have h3 : xs.take (min b.toNat xs.length) = xs.take b.toNat := by
    rw [List.take_eq_take]; omega
  rw [h3]
  by_cases hc : a.toNat ≤ xs.length
  · rw [min_eq_left hc, List.drop_take]
  · push_neg at hc
    rw [min_eq_right hc.le, List.drop_take, List.drop_length,
      List.drop_eq_nil_of_le hc.le, List.take_nil, List.take_nil]

/-- Helper: the full characterisation of `_page` for a positive page size. -/
theorem page_formula {α : Type} (items : List α) (offset page_size : Int)
    (hps : 0 < page_size) :
    (_page items offset page_size).slice =
        (items.drop (max offset 0).toNat).take
          (min ((max offset 0).toNat + page_size.toNat) items.length
            - (max offset 0).toNat) ∧
    (_page items offset page_size).total = items.length ∧
    ((_page items offset page_size).more = true ↔
        min ((max offset 0).toNat + page_size.toNat) items.length
          < items.length) ∧
    (_page items offset page_size).next_token =
      (if min ((max offset 0).toNat + page_size.toNat) items.length
          < items.length
       then some (encode_token
          ((min ((max offset 0).toNat + page_size.toNat) items.length : Nat)
            : Int))
       else none) := by
  have hn : (0:Int) ≤ (items.length : Int) := Int.ofNat_nonneg _
  have hS : (0:Int) ≤ max offset 0 := by omega
  have hT : (0:Int) ≤ min (max offset 0 + page_size) (items.length : Int) := by
    omega
  simp only [_page]
  refine ⟨?_, by trivial, ?_, ?_⟩
  · rw [pyslice_nonneg items _ _ hS hT]
    congr 1
    omega
  · simp only [decide_eq_true_eq]
    omega
  · by_cases h : min (max offset 0 + page_size) (items.length : Int)
        < (items.length : Int)
    · rw [if_pos h, if_pos (show min ((max offset 0).toNat + page_size.toNat)
          items.length < items.length by omega)]
      simp only [encode_token, Option.some.injEq, Token.valid.injEq]
      omega
    · rw [if_neg h, if_neg (show ¬ min ((max offset 0).toNat + page_size.toNat)
          items.length < items.length by omega)]

/-- C1: for every item list, every (decoded or arbitrary) offset, and every
positive page size, `_page` returns exactly the slice `items[start:end]`
where `start = max(offset, 0)` and `end = min(start + page_size, len(items))`,
reports `total = len(items)` and `more = (end < total)`, and returns
`next_token = encode(end)` when more is true and no token otherwise. -/
theorem C1_page_spec {α : Type} (items : List α) (offset page_size : Int)
    (hps : 0 < page_size) :
    (_page items offset page_size).slice =
        (items.drop (max offset 0).toNat).take
          (min ((max offset 0).toNat + page_size.toNat) items.length
            - (max offset 0).toNat) ∧
    (_page items offset page_size).total = items.length ∧
    ((_page items offset page_size).more = true ↔
        min ((max offset 0).toNat + page_size.toNat) items.length
          < items.length) ∧
    (_page items offset page_size).next_token =
      (if min ((max offset 0).toNat + page_size.toNat) items.length
          < items.length
       then some (encode_token
          ((min ((max offset 0).toNat + page_size.toNat) items.length : Nat)
            : Int))
       else none) :=
  page_formula items offset page_size hps

/-- Witness for C1 at a concrete input: items of length 5, offset 1,
page size 2. -/
theorem C1_page_spec_witness :
    (0:Int) < 2 ∧ (_page [0, 1, 2, 3, 4] (1:Int) 2).slice = [1, 2] := by
  refine ⟨by decide, ?_⟩
  have h := C1_page_spec [0, 1, 2, 3, 4] 1 2 (by decide)
  rw [h.1]
  decide

/-- Helper: `_page` at a natural-number offset and positive natural page
size, stated over naturals. -/
theorem page_nat {α : Type} (items : List α) (o k : Nat) (hk : 1 ≤ k) :
    (_page items (o:Int) (k:Int)).slice =
        (items.drop o).take (min (o + k) items.length - o) ∧
    ((_page items (o:Int) (k:Int)).more = true ↔ o + k < items.length) ∧
    (_page items (o:Int) (k:Int)).next_token =
      (if o + k < items.length
       then some (Token.valid ((o + k : Nat) : Int)) else none) := by
  have hps : (0:Int) < (k:Int) := by exact_mod_cast hk
  obtain ⟨h1, _, h3, h4⟩ := page_formula items o k hps
  have e1 : (max (o:Int) 0).toNat = o := by omega
  have e2 : ((k:Int)).toNat = k := by omega
  rw [e1, e2] at h1 h3 h4
  refine ⟨h1, ?_, ?_⟩
  · rw [h3]; omega
  · rw [h4]
    by_cases h : o + k < items.length
    · rw [if_pos (by omega : min (o + k) items.length < items.length),
        if_pos h]
      simp only [encode_token, Option.some.injEq, Token.valid.injEq]
      omega
    · rw [if_neg (by omega : ¬ min (o + k) items.length < items.length),
        if_neg h]

/-- Helper: with enough fuel and page size `k ≥ 1`, the paging loop started
at natural offset `o` returns exactly the remainder `items.drop o`. -/
theorem pageLoopFuel_eq_drop {α : Type} (items : List α) (k : Nat)
    (hk : 1 ≤ k) :
    ∀ fuel o : Nat, 1 ≤ fuel → items.length ≤ o + fuel * k →
      pageLoopFuel fuel items (k:Int) (o:Int) = some (items.drop o) := by
  intro fuel
  induction fuel with
  | zero => intro o h _; exact absurd h (by omega)
  | succ f ih =>
    intro o _ hle
    obtain ⟨hs, hm, ht⟩ := page_nat items o k hk
    simp only [pageLoopFuel]
    by_cases h : o + k < items.length
    · have hle' : items.length ≤ o + k + f * k := by
        rw [Nat.succ_mul] at hle; omega
      have hf : 1 ≤ f := by
        rcases Nat.eq_zero_or_pos f with hf0 | hf0
        · subst hf0; rw [Nat.zero_mul] at hle'; omega
        · exact hf0
      rw [if_pos (hm.mpr h), ht, if_pos h]
      have hdec : decode_token (some (Token.valid ((o + k : Nat) : Int)))
          = ((o + k : Nat) : Int) := by
        simp only [decode_token]
        rw [if_neg (by omega : ¬ ((o + k : Nat) : Int) < 0)]
      rw [hdec, ih (o + k) hf hle']
      show some _ = some _
      congr 1
      rw [hs, min_eq_left (le_of_lt h), Nat.add_sub_cancel_left,
        ← List.drop_drop]
      exact List.take_append_drop k (items.drop o)
    · rw [if_neg (fun hc => h (hm.mp hc))]
      congr 1
      rw [hs, min_eq_right (by omega : items.length ≤ o + k)]
      exact List.take_of_length_le (by rw [List.length_drop])

/-- C2: for every item sequence and every fixed page size `k ≥ 1`, starting
from offset 0 and repeatedly requesting the next page at the offset decoded
from the returned next token until `more` is false yields pages whose
concatenation equals the full sequence — no element duplicated, none
omitted.  `items.length + 1` requests always suffice. -/
theorem C2_paging_exhaustive {α : Type} (items : List α) (k : Nat)
    (hk : 1 ≤ k) :
    pageLoopFuel (items.length + 1) items (k:Int) 0 = some items := by
  have hfuel : items.length ≤ 0 + (items.length + 1) * k := by
    have h1 : items.length + 1 ≤ (items.length + 1) * k :=
      Nat.le_mul_of_pos_right _ hk
    omega
  have h := pageLoopFuel_eq_drop items k hk (items.length + 1) 0
    (by omega) hfuel
  rw [show ((0:Nat):Int) = (0:Int) by norm_num] at h
  rw [h, List.drop_zero]

/-- Witness for C2 at a concrete input: three items, page size 2. -/
theorem C2_paging_exhaustive_witness :
    1 ≤ 2 ∧ pageLoopFuel 4 [10, 20, 30] (2:Int) 0 = some [10, 20, 30] := by
  refine ⟨by decide, ?_⟩
  have h := C2_paging_exhaustive [10, 20, 30] 2 (by decide)
  simpa using h

/-- C3: decoding the token produced by encoding a non-negative offset
returns that offset, and encoding is stable — equal offsets always produce
equal tokens.  (Cursor codec modelled from the spec, §4.3.) -/
theorem C3_token_roundtrip (n m : Nat) :
    decode_token (some (encode_token (n : Int))) = (n : Int) ∧
    ((n : Int) = (m : Int) → encode_token (n : Int) = encode_token (m : Int))
    := by
  constructor
  · simp only [encode_token, decode_token]
    rw [if_neg (by omega : ¬ (n : Int) < 0)]
  · intro h
    rw [h]

/-- Witness for C3 at the concrete offset 5. -/
theorem C3_token_roundtrip_witness :
    ((5:Nat) : Int) = ((5:Nat) : Int) ∧
    decode_token (some (encode_token ((5:Nat) : Int))) = ((5:Nat) : Int) := by
  refine ⟨rfl, ?_⟩
  exact (C3_token_roundtrip 5 5).1

/-- C4: decoding an absent, empty, or malformed cursor token yields offset 0
and never errors (the decoder is a total function in the model); a
list-indicators request carrying an invalid next cursor is served exactly
as a request starting at offset 0.  (Cursor codec modelled from the spec,
§4.3; `get_indicators` from `app/main.py:179-193`, which calls
`decode_token(next)` before paging.) -/
theorem C4_invalid_cursor_fails_closed (s : String) (store : List StixObj)
    (since : Option Int) (limit page_size : Option Int) :
    decode_token none = 0 ∧
    decode_token (some (Token.malformed s)) = 0 ∧
    get_indicators store since limit page_size (some (Token.malformed s)) =
      get_indicators store since limit page_size none := by
  exact ⟨rfl, rfl, rfl⟩

/-- Helper: paging from offset 0 with the full length as page size returns
everything in one page with `more = false`. -/
theorem page_all {α : Type} (items : List α) :
    (_page items 0 (items.length : Int)).slice = items ∧
    (_page items 0 (items.length : Int)).more = false := by
  have h0 : max (0:Int) 0 = 0 := max_self 0
  have hm : min (max (0:Int) 0 + (items.length : Int)) (items.length : Int)
      = (items.length : Int) := by rw [h0]; omega
  simp only [_page, hm]
  constructor
  · rw [h0, pyslice_nonneg items 0 _ (le_refl 0) (Int.ofNat_nonneg _)]
    simp
  · simp

/-- C5 counterexample: with two indicator objects in the store, no
`page_size`, and the caller-supplied `limit = 0`, the effective page size
is the full result length 2 — not the caller's limit 0 — because Python's
`limit or len(items)` falls through on the falsy value 0, and the request
returns all 2 objects instead of an empty page. -/
theorem C5_counterexample :
    effective_page_size 2 (some 0) none ≠ 0 ∧
    (get_indicators [⟨"i1", "indicator", 0⟩, ⟨"i2", "indicator", 0⟩]
      none (some 0) none none).slice.length = 2 := by
  constructor
  · decide
  · decide

/-- C5 (amended): when the caller supplies no `page_size`, the effective
page size is the caller-supplied `limit` when that limit is non-zero; a
zero limit — like an absent one — falls back to the full filtered result
length; and a request with neither `page_size` nor `limit` returns the
entire result in a single page with `more = false`. -/
theorem C5_default_page_size (store : List StixObj) (since : Option Int)
    (l : Int) (hl : l ≠ 0) (n : Nat) :
    effective_page_size n (some l) none = l ∧
    effective_page_size n none none = (n : Int) ∧
    effective_page_size n (some 0) none = (n : Int) ∧
    (get_indicators store since none none none).slice =
      load_indicators store since 10000 ∧
    (get_indicators store since none none none).more = false := by
  have hall := page_all (load_indicators store since 10000)
  refine ⟨?_, rfl, rfl, ?_, ?_⟩
  · simp only [effective_page_size]
    rw [if_neg hl]
  · exact hall.1
  · exact hall.2

/-- Witness for C5 (amended) at limit 7 and a one-object store. -/
theorem C5_default_page_size_witness :
    (7:Int) ≠ 0 ∧
    (get_indicators [⟨"i1", "indicator", 0⟩] none none none none).slice =
      load_indicators [⟨"i1", "indicator", 0⟩] none 10000 := by
  refine ⟨by decide, ?_⟩
  exact (C5_default_page_size [⟨"i1", "indicator", 0⟩] none 7 (by decide)
    1).2.2.2.1

/-- Helper: the deletion sweep removes exactly the matching old files, in
walk order, and keeps exactly the others. -/
theorem reap_sweep_eq (t : Int) (files : List FSFile) :
    reap_sweep t files =
      ((files.filter (fun f => matches_snapshot_convention f.name &&
          decide (f.mtime < t))).map (fun f => f.name),
       files.filter (fun f => !(matches_snapshot_convention f.name &&
          decide (f.mtime < t)))) := by
  induction files with
  | nil => rfl
  | cons f fs ih =>
    by_cases h1 : matches_snapshot_convention f.name = true
    · by_cases h2 : f.mtime < t
      · simp [reap_sweep, ih, List.filter_cons, h1, h2]
      · simp [reap_sweep, ih, List.filter_cons, h1, h2]
    · have h1' : matches_snapshot_convention f.name = false := by
        cases hb : matches_snapshot_convention f.name
        · rfl
        · exact absurd hb h1
      simp [reap_sweep, ih, List.filter_cons, h1']

/-- C6: the delete-old-snapshots operation with age threshold `h` hours
deletes exactly the files matching the snapshot naming convention
(name starting with "indicators_" whose lower-casing ends in ".json")
whose modification time is strictly older than `now − h` hours; it returns
the deleted names (in walk order) and their count with the threshold
echoed, and it never deletes a file that does not match the convention. -/
theorem C6_reaper_spec (files : List FSFile) (now h : Int) :
    (delete_old_ti_files files now h).deleted_files =
      (files.filter (fun f => matches_snapshot_convention f.name &&
        decide (f.mtime < now - h * 3600))).map (fun f => f.name) ∧
    (delete_old_ti_files files now h).surviving =
      files.filter (fun f => !(matches_snapshot_convention f.name &&
        decide (f.mtime < now - h * 3600))) ∧
    (delete_old_ti_files files now h).total_deleted =
      (delete_old_ti_files files now h).deleted_files.length ∧
    (delete_old_ti_files files now h).threshold_hours = h ∧
    (∀ f, f ∈ files → matches_snapshot_convention f.name = false →
      f ∈ (delete_old_ti_files files now h).surviving) := by
  have hs := reap_sweep_eq (now - h * 3600) files
  refine ⟨?_, ?_, rfl, rfl, ?_⟩
  · show (reap_sweep (now - h * 3600) files).1 = _
    rw [hs]
  · show (reap_sweep (now - h * 3600) files).2 = _
    rw [hs]
  · intro f hf hconv
    show f ∈ (reap_sweep (now - h * 3600) files).2
    rw [hs]
    exact List.mem_filter.mpr ⟨hf, by simp [hconv]⟩

/-- Witness for C6: the spec's retention scenario — snapshots aged 10h and
2h plus an unrelated file, swept with a 6-hour threshold: exactly the
10h-old snapshot is deleted and the unrelated file survives. -/
theorem C6_reaper_spec_witness :
    matches_snapshot_convention "notes.txt" = false ∧
    (delete_old_ti_files [⟨"indicators_a.json", 0⟩,
        ⟨"indicators_b.json", 28800⟩, ⟨"notes.txt", 0⟩]
      36000 6).deleted_files = ["indicators_a.json"] ∧
    (⟨"notes.txt", 0⟩ : FSFile) ∈
      (delete_old_ti_files [⟨"indicators_a.json", 0⟩,
        ⟨"indicators_b.json", 28800⟩, ⟨"notes.txt", 0⟩]
        36000 6).surviving := by
  have h := C6_reaper_spec [⟨"indicators_a.json", 0⟩,
    ⟨"indicators_b.json", 28800⟩, ⟨"notes.txt", 0⟩] 36000 6
  refine ⟨by decide, ?_, ?_⟩
  · rw [h.1]
    decide
  · exact h.2.2.2.2 ⟨"notes.txt", 0⟩ (by decide) (by decide)

/-- C7: with generate-on-start enabled, exactly one generate-and-write
cycle runs before the periodic loop begins; thereafter every loop iteration
extends the trace by `loop_iter` — a total function of the cycle outcome,
so the loop never terminates and a cycle's failure never escapes it; a
failed cycle is logged and followed by the fixed 10-second backoff, which
is shorter than the normal interval whenever the configured interval
exceeds 10 seconds (the default is 7200); a successful cycle sleeps the
interval then generates and writes. -/
theorem C7_scheduler_loop (interval : Nat)
    (outcomes : Nat → Except String Unit) (n : Nat) (e : String)
    (hint : 10 < interval) :
    scheduler_trace true interval outcomes 0 = [SchedEvent.generate_write] ∧
    scheduler_trace true interval outcomes (n + 1) =
      scheduler_trace true interval outcomes n ++
        loop_iter interval (outcomes n) ∧
    loop_iter interval (Except.error e) =
      [SchedEvent.sleep interval, SchedEvent.log_error e,
        SchedEvent.sleep 10] ∧
    loop_iter interval (Except.ok ()) =
      [SchedEvent.sleep interval, SchedEvent.generate_write] ∧
    10 < interval :=
  ⟨rfl, rfl, rfl, rfl, hint⟩

/-- Witness for C7 at the default interval of 7200 seconds. -/
theorem C7_scheduler_loop_witness :
    10 < 7200 ∧
    scheduler_trace true 7200 (fun _ => Except.ok ()) 0 =
      [SchedEvent.generate_write] := by
  refine ⟨by decide, ?_⟩
  exact (C7_scheduler_loop 7200 (fun _ => Except.ok ()) 0 "disk full"
    (by decide)).1

/-- C8: evaluation at the failing input.  With items [10, 20], offset 0 and
page_size −1 (which satisfies page_size ≤ 0), the computed end index is −1;
Python slicing interprets a negative end index from the end of the list, so
`_page` returns the non-empty page [10] instead of the empty page the claim
requires. -/
theorem C8_negative_page_size_not_empty :
    (-1 : Int) ≤ 0 ∧ (_page [(10:Nat), 20] 0 (-1)).slice = [10] ∧
    (_page [(10:Nat), 20] 0 (-1)).slice ≠ [] := by
  refine ⟨by decide, by decide, by decide⟩

/-- C9 counterexample: at items [7, 8, 9], offset 0 and page_size −1 every
hypothesis of the claim holds (non-empty items, 0 ≤ offset,
offset + page_size < len(items), page_size ≤ 0), yet the returned page is
not empty: the negative end index wraps around under Python slicing and
the page is [7, 8]. -/
theorem C9_counterexample :
    ([7, 8, 9] : List Nat) ≠ [] ∧ (0:Int) ≤ 0 ∧
    (0:Int) + (-1) < (([7, 8, 9] : List Nat).length : Int) ∧
    (-1:Int) ≤ 0 ∧
    (_page [(7:Nat), 8, 9] 0 (-1)).slice = [7, 8] := by
  refine ⟨by decide, by decide, by decide, by decide, by decide⟩

/-- C9 (amended): under the additional condition `offset + page_size ≥ 0`
(the computed end index is non-negative — forced by the counterexample, in
which the negative end index wraps around), `_page` with `page_size ≤ 0`,
`0 ≤ offset` and `offset + page_size < len(items)` returns an empty page
yet reports `more = true` and a next token encoding `offset + page_size`,
a position no greater than the current offset — so a client following next
tokens with a non-positive page size never advances. -/
theorem C9_nonpositive_page_size_stalls {α : Type} (items : List α)
    (offset ps : Int) (_hne : items ≠ []) (hoff : 0 ≤ offset)
    (hlt : offset + ps < (items.length : Int)) (hps : ps ≤ 0)
    (hnn : 0 ≤ offset + ps) :
    (_page items offset ps).slice = [] ∧
    (_page items offset ps).more = true ∧
    (_page items offset ps).next_token =
      some (encode_token (offset + ps)) ∧
    offset + ps ≤ offset := by
  have hstart : max offset 0 = offset := max_eq_left hoff
  have hstop : min (max offset 0 + ps) ((items.length : Int))
      = offset + ps := by rw [hstart]; omega
  simp only [_page, hstop]
  refine ⟨?_, ?_, ?_, by omega⟩
  · rw [hstart, pyslice_nonneg items offset (offset + ps) hoff hnn,
      show (offset + ps).toNat - offset.toNat = 0 by omega, List.take_zero]
  · simp only [decide_eq_true_eq]
    exact hlt
  · rw [if_pos hlt]

/-- Witness for C9 (amended): three items, offset 2, page size −1. -/
theorem C9_stalls_witness :
    ([10, 20, 30] : List Nat) ≠ [] ∧ (0:Int) ≤ 2 ∧
    (2:Int) + (-1) < (([10, 20, 30] : List Nat).length : Int) ∧
    (-1:Int) ≤ 0 ∧ (0:Int) ≤ 2 + (-1) ∧
    (_page [(10:Nat), 20, 30] 2 (-1)).slice = [] := by
  refine ⟨by decide, by decide, by decide, by decide, by decide, ?_⟩
  exact (C9_nonpositive_page_size_stalls [10, 20, 30] 2 (-1) (by decide)
    (by decide) (by decide) (by decide) (by decide)).1

/-- Helper: a Python slice of `xs` is never longer than `xs`. -/
theorem pyslice_length_le {α : Type} (xs : List α) (a b : Int) :
    (pyslice xs a b).length ≤ xs.length := by
  simp only [pyslice, List.length_drop, List.length_take]
  split <;> split <;> omega

/-- Helper: every element of a Python slice of `xs` is an element of
`xs`. -/
theorem pyslice_subset {α : Type} (xs : List α) (a b : Int) :
    ∀ x, x ∈ pyslice xs a b → x ∈ xs := by
  intro x hx
  simp only [pyslice] at hx
  exact List.mem_of_mem_take (List.mem_of_mem_drop hx)

/-- Helper: a page reports the item count as its total, and its slice draws
only from the items. -/
theorem page_bounds {α : Type} (items : List α) (offset ps : Int) :
    (_page items offset ps).total = items.length ∧
    (_page items offset ps).slice.length ≤ items.length ∧
    (∀ x, x ∈ (_page items offset ps).slice → x ∈ items) := by
  refine ⟨rfl, ?_, ?_⟩
  · exact pyslice_length_le items _ _
  · exact pyslice_subset items _ _

/-- Helper: the loaded merged view never exceeds the requested limit. -/
theorem load_objects_length_le (store : List StixObj) (since : Option Int)
    (limit : Nat) (types : Option (List String)) :
    (load_objects store since limit types).length ≤ limit := by
  simp only [load_objects, List.length_take]
  omega

/-- C10: every list operation — indicators, collection objects, and TAXII
objects — loads the merged view with the hard-coded cap of 10 000 objects,
so the reported total and the objects reachable by paging never exceed
10 000, however many objects the snapshots contain. -/
theorem C10_merged_view_cap (store : List StixObj) (since af : Option Int)
    (limit page_size : Option Int) (next : Option Token)
    (cID cid : String) (types : Option String) (ps lim : Int) (tio : Bool)
    (r2 r3 : PageResult StixObj) :
    (get_indicators store since limit page_size next).total ≤ 10000 ∧
    (get_indicators store since limit page_size next).slice.length
      ≤ 10000 ∧
    (∀ x, x ∈ (get_indicators store since limit page_size next).slice →
      x ∈ load_indicators store since 10000) ∧
    (get_collection_objects cID store cid since types ps next =
        Except.ok r2 →
      r2.total ≤ 10000 ∧ r2.slice.length ≤ 10000) ∧
    (taxii_objects cID tio store cid af lim next types = Except.ok r3 →
      r3.total ≤ 10000 ∧ r3.slice.length ≤ 10000) := by
  have hcap : (load_indicators store since 10000).length ≤ 10000 :=
    load_objects_length_le store since 10000 (some ["indicator"])
  have h1 := page_bounds (load_indicators store since 10000)
    (decode_token next)
    (effective_page_size (load_indicators store since 10000).length limit
      page_size)
  refine ⟨?_, ?_, ?_, ?_, ?_⟩
  · show (_page (load_indicators store since 10000) (decode_token next)
        (effective_page_size (load_indicators store since 10000).length
          limit page_size)).total ≤ 10000
    rw [h1.1]
    exact hcap
  · exact le_trans h1.2.1 hcap
  · exact h1.2.2
  · intro hok
    simp only [get_collection_objects] at hok
    by_cases hcid : cid ≠ cID
    · rw [if_pos hcid] at hok
      cases hok
    · rw [if_neg hcid] at hok
      injection hok with h2
      subst h2
      have h3 := page_bounds
        (_collect_items store since (_parse_types_param types))
        (decode_token next) ps
      have hc2 : (_collect_items store since
          (_parse_types_param types)).length ≤ 10000 :=
        load_objects_length_le store since 10000 (_parse_types_param types)
      exact ⟨le_trans (le_of_eq h3.1) hc2, le_trans h3.2.1 hc2⟩
  · intro hok
    simp only [taxii_objects] at hok
    by_cases hcid : cid ≠ cID
    · rw [if_pos hcid] at hok
      cases hok
    · rw [if_neg hcid] at hok
      injection hok with h2
      subst h2
      have h3 := page_bounds
        (_collect_items store af (if tio then some ["indicator"]
          else _parse_types_param types))
        (decode_token next) lim
      have hc2 : (_collect_items store af (if tio then some ["indicator"]
          else _parse_types_param types)).length ≤ 10000 :=
        load_objects_length_le store af 10000 _
      exact ⟨le_trans (le_of_eq h3.1) hc2, le_trans h3.2.1 hc2⟩

/-- Witness for C10: an empty store, the configured collection id, and the
page the code actually returns. -/
theorem C10_merged_view_cap_witness :
    (get_collection_objects "indicators" [] "indicators" none none 100 none
      = Except.ok (_page ([] : List StixObj) 0 100)) ∧
    (_page ([] : List StixObj) 0 100).total ≤ 10000 := by
  have hok : get_collection_objects "indicators" [] "indicators" none none
      100 none = Except.ok (_page ([] : List StixObj) 0 100) := rfl
  exact ⟨hok, ((C10_merged_view_cap [] none none none none none
    "indicators" "indicators" none 100 100 false
    (_page ([] : List StixObj) 0 100)
    (_page ([] : List StixObj) 0 100)).2.2.2.1 hok).1⟩

end TIApi
